import Mathlib

/-!
Verification of the geometry adapter layer of the `spreadsheet` repository
(`src/convert.rs`).  Coordinates are modelled as rationals: every conversion in
the layer only copies, compares (`<`, `>`, `==`) and selects 64-bit float
values — no arithmetic is performed — so for finite, non-NaN doubles the
rational model is exact.
-/

namespace Spreadsheet

/-- `geo_types::Coord`: a bare (x, y) pair of 64-bit floats. -/
structure Coord where
  x : ℚ
  y : ℚ
deriving DecidableEq, Repr

/-- `geo_types::Point`: a tuple struct wrapping a `Coord`. -/
structure GeoPoint where
  coord : Coord
deriving DecidableEq, Repr

/-- `shapefile::record::point::Point`: a planar shapefile point. -/
structure ShpPoint where
  x : ℚ
  y : ℚ
deriving DecidableEq, Repr

/-- `shapefile::record::point::PointZ`: a shapefile point carrying a
z-elevation and a measure `m`. -/
structure ShpPointZ where
  x : ℚ
  y : ℚ
  z : ℚ
  m : ℚ
deriving DecidableEq, Repr

/-- `galileo::galileo_types::cartesian::Point2d`: the rendering model's point. -/
structure Point2d where
  x : ℚ
  y : ℚ
deriving DecidableEq, Repr

/-- `geo_types::LineString`: an ordered list of coordinates. -/
abbrev LineString : Type := List Coord

/-- `geo_types::LineString::close` (external crate): if the line is non-empty
and its first coordinate differs from its last, append the first coordinate.
An empty or already-closed line is unchanged. -/
def LineString.close (ls : LineString) : LineString :=
  match ls with
  | [] => []
  | a :: rest =>
    if (a :: rest).getLast (by simp) = a then a :: rest
    else (a :: rest) ++ [a]

/-- `geo_types::Polygon`: one exterior ring and a list of interior rings. -/
structure GeoPolygon where
  exterior : LineString
  interiors : List LineString
deriving DecidableEq, Repr

/-- `geo_types::Polygon::new` (external crate): closes the exterior ring and
every interior ring, then stores them. -/
def GeoPolygon.new (exterior : LineString) (interiors : List LineString) : GeoPolygon :=
  { exterior := exterior.close, interiors := interiors.map LineString.close }

/-- `shapefile::record::polygon::PolygonRing<P>`: a ring of points pre-tagged
with its winding-derived role, `Outer` or `Inner`. -/
inductive PolygonRing (P : Type) where
  | Outer (points : List P)
  | Inner (points : List P)
deriving DecidableEq, Repr

/-- `PolygonRing::into_inner` (external crate): the ring's point list,
whatever its tag. -/
def PolygonRing.points {P : Type} : PolygonRing P → List P
  | .Outer pts => pts
  | .Inner pts => pts

namespace Convert

/-- `Convert<shapefile::record::point::Point>::geo_coord`
(src/convert.rs:418-420): copy x and y into a `geo::Coord`. -/
def shpPoint_geo_coord (p : ShpPoint) : Coord :=
  { x := p.x, y := p.y }

/-- `Convert<shapefile::record::point::PointZ>::geo_coord`
(src/convert.rs:455-457): copy x and y into a `geo::Coord`, dropping z and m. -/
def shpPointZ_geo_coord (p : ShpPointZ) : Coord :=
  { x := p.x, y := p.y }

/-- `Convert<PolygonRing<Point>>::geo_linestring` (src/convert.rs:275-283):
convert each point of the ring to a `geo::Coord` and collect them into a
`geo::LineString`. -/
def ring_geo_linestring (r : PolygonRing ShpPoint) : LineString :=
  r.points.map shpPoint_geo_coord

/-- `Convert<PolygonRing<PointZ>>::geo_linestring` (src/convert.rs:290-298):
convert each point of the ring to a `geo::Coord` and collect them into a
`geo::LineString`. -/
def ringZ_geo_linestring (r : PolygonRing ShpPointZ) : LineString :=
  r.points.map shpPointZ_geo_coord

/-- The loop state of `geo_polygons`: the emitted polygons `polys`, the pending
outer ring `outer`, and the accumulated holes `inner`. -/
structure RingState where
  polys : List GeoPolygon
  outer : Option LineString
  inner : List LineString

/-- One iteration of the ring loop of
`Convert<shapefile::record::polygon::Polygon>::geo_polygons`
(src/convert.rs:199-220): an `Outer` ring with a pending outer flushes
`Polygon::new(outer, inner)` and resets `outer` to `None` and `inner` to empty
(the ring itself is discarded); an `Outer` ring with no pending outer becomes
the pending outer; an `Inner` ring is converted and pushed onto `inner`. -/
def geoPolyStep (s : RingState) (ring : PolygonRing ShpPoint) : RingState :=
  match ring with
  | .Outer _ =>
    match s.outer with
    | some x => { polys := s.polys ++ [GeoPolygon.new x s.inner], outer := none, inner := [] }
    | none => { polys := s.polys, outer := some (ring_geo_linestring ring), inner := s.inner }
  | .Inner _ =>
    { polys := s.polys, outer := s.outer, inner := s.inner ++ [ring_geo_linestring ring] }

/-- `Convert<shapefile::record::polygon::Polygon>::geo_polygons`
(src/convert.rs:195-228): run the ring loop, then, only when no polygon was
emitted during the loop, flush the pending outer ring (if any) with the
accumulated holes. -/
def geo_polygons (rings : List (PolygonRing ShpPoint)) : List GeoPolygon :=
  let s := rings.foldl geoPolyStep ⟨[], none, []⟩
  if s.polys.isEmpty then
    match s.outer with
    | some ring => s.polys ++ [GeoPolygon.new ring s.inner]
    | none => s.polys
  else s.polys

/-- One iteration of the ring loop of
`Convert<GenericPolygon<PointZ>>::geo_polygons` (src/convert.rs:239-260),
identical in structure to the planar version. -/
def geoPolyStepZ (s : RingState) (ring : PolygonRing ShpPointZ) : RingState :=
  match ring with
  | .Outer _ =>
    match s.outer with
    | some x => { polys := s.polys ++ [GeoPolygon.new x s.inner], outer := none, inner := [] }
    | none => { polys := s.polys, outer := some (ringZ_geo_linestring ring), inner := s.inner }
  | .Inner _ =>
    { polys := s.polys, outer := s.outer, inner := s.inner ++ [ringZ_geo_linestring ring] }

/-- `Convert<GenericPolygon<PointZ>>::geo_polygons` (src/convert.rs:234-268). -/
def geo_polygonsZ (rings : List (PolygonRing ShpPointZ)) : List GeoPolygon :=
  let s := rings.foldl geoPolyStepZ ⟨[], none, []⟩
  if s.polys.isEmpty then
    match s.outer with
    | some ring => s.polys ++ [GeoPolygon.new ring s.inner]
    | none => s.polys
  else s.polys

end Convert

/-- `geo::Rect` (external crate): a min/max coordinate pair; `bounding_rect`
always returns it with `min.x ≤ max.x` and `min.y ≤ max.y`. -/
structure GeoRect where
  min : Coord
  max : Coord
deriving DecidableEq, Repr

/-- `geo::algorithm::bounding_rect::BoundingRect` for a `LineString` (external
crate primitive, per §4.4 of the spec): `none` exactly when the line has no
coordinates, otherwise the componentwise min/max over all coordinates. -/
def LineString.bounding_rect (ls : LineString) : Option GeoRect :=
  match ls with
  | [] => none
  | c :: rest =>
    some (rest.foldl
      (fun r p => ⟨⟨min r.min.x p.x, min r.min.y p.y⟩, ⟨max r.max.x p.x, max r.max.y p.y⟩⟩)
      ⟨c, c⟩)

/-- `galileo::galileo_types::cartesian::Rect<f64>` with its four bounds, as
passed positionally to `Rect::new(x_min, y_min, x_max, y_max)` by the code. -/
structure GRect where
  x_min : ℚ
  y_min : ℚ
  x_max : ℚ
  y_max : ℚ
deriving DecidableEq, Repr

/-- `galileo::galileo_types::impls::ClosedContour<Point2d>`: a point list whose
closure is implicit in the type's semantics. -/
structure ClosedContour where
  points : List Point2d
deriving DecidableEq, Repr

/-- `galileo::galileo_types::impls::Polygon<Point2d>`: one outer contour and
inner contours. -/
structure GalPolygon where
  outer_contour : ClosedContour
  inner_contours : List ClosedContour
deriving DecidableEq, Repr

/-- `galileo::galileo_types::impls::MultiPolygon<Point2d>`. -/
structure GalMultiPolygon where
  parts : List GalPolygon
deriving DecidableEq, Repr

/-- `f64::MAX`, the largest finite 64-bit float, exact as a rational. -/
def f64MAX : ℚ := (2 ^ 53 - 1) * 2 ^ 971

/-- `f64::MIN`, the smallest finite 64-bit float: `-f64::MAX`. -/
def f64MIN : ℚ := -f64MAX

namespace Convert

/-- The `CartesianPoint2d` impl for `Convert<geo_types::Point>`
(src/convert.rs:365-374): x of the wrapped point. -/
def GeoPoint.x (p : GeoPoint) : ℚ := p.coord.x

/-- The `CartesianPoint2d` impl for `Convert<geo_types::Point>`
(src/convert.rs:365-374): y of the wrapped point. -/
def GeoPoint.y (p : GeoPoint) : ℚ := p.coord.y

/-- `Convert<geo_types::Coord>::point` (src/convert.rs:482-484). -/
def coord_point (c : Coord) : Point2d := ⟨c.x, c.y⟩

/-- `Convert<geo_types::Point>::point` (src/convert.rs:378-380). -/
def geoPoint_point (p : GeoPoint) : Point2d := ⟨GeoPoint.x p, GeoPoint.y p⟩

/-- `Convert<geo_types::Point>::geo_point` (src/convert.rs:383-385). -/
def geoPoint_geo_point (p : GeoPoint) : GeoPoint := ⟨⟨GeoPoint.x p, GeoPoint.y p⟩⟩

/-- `Convert<geo_types::Point>::geo_coord` (src/convert.rs:388-390). -/
def geoPoint_geo_coord (p : GeoPoint) : Coord := ⟨GeoPoint.x p, GeoPoint.y p⟩

/-- `Convert<shapefile::record::point::Point>::point` (src/convert.rs:406-408). -/
def shpPoint_point (p : ShpPoint) : Point2d := ⟨p.x, p.y⟩

/-- `Convert<shapefile::record::point::Point>::geo_point`
(src/convert.rs:412-414). -/
def shpPoint_geo_point (p : ShpPoint) : GeoPoint := ⟨⟨p.x, p.y⟩⟩

/-- `Convert<shapefile::record::point::PointZ>::point` (src/convert.rs:443-445),
via the `HasXY` accessors. -/
def shpPointZ_point (p : ShpPointZ) : Point2d := ⟨p.x, p.y⟩

/-- `Convert<shapefile::record::point::PointZ>::geo_point`
(src/convert.rs:449-451). -/
def shpPointZ_geo_point (p : ShpPointZ) : GeoPoint := ⟨⟨p.x, p.y⟩⟩

/-- `Convert<shapefile::record::point::PointZ>::geotypes_coord`
(src/convert.rs:461-466). -/
def shpPointZ_geotypes_coord (p : ShpPointZ) : Coord := ⟨p.x, p.y⟩

/-- `Convert<geo_types::LineString>::contour` (src/convert.rs:308-315): map
each coordinate through `Convert<geo_types::Coord>::point` and wrap in a
`ClosedContour`. -/
def contour (ls : LineString) : ClosedContour := ⟨ls.map coord_point⟩

/-- `Convert<geo_types::LineString>::bounds` (src/convert.rs:303-305). -/
def bounds (ls : LineString) : Option GeoRect := ls.bounding_rect

/-- `Convert<geo_types::Polygon>::polygon` (src/convert.rs:152-164): the
exterior becomes the outer contour, each interior becomes an inner contour
(the `is_empty` guard in the source is a no-op for an empty interior list). -/
def polygon (p : GeoPolygon) : GalPolygon :=
  { outer_contour := contour p.exterior, inner_contours := p.interiors.map contour }

/-- `Convert<geo_types::Polygon>::bounded_polygon` (src/convert.rs:169-189):
the converted polygon plus the bounding rectangle of its exterior ring, passed
through `Rect::new(xmin, ymin, xmax, ymax)` when present. -/
def bounded_polygon (p : GeoPolygon) : GalPolygon × Option GRect :=
  match bounds p.exterior with
  | some rect => (polygon p, some ⟨rect.min.x, rect.min.y, rect.max.x, rect.max.y⟩)
  | none => (polygon p, none)

/-- `Convert<geo_types::MultiPolygon>::multipolygon` (src/convert.rs:32-44):
convert each part with `polygon`; rayon's ordered parallel collect is modelled
as an order-preserving map. -/
def multipolygon (m : List GeoPolygon) : GalMultiPolygon :=
  ⟨m.map polygon⟩

/-- The four min/max accumulators of `bounded_multipolygon`
(src/convert.rs:71-74), initialised to `f64::MAX` / `f64::MIN` sentinels. -/
structure BoundsAcc where
  xmin : ℚ
  ymin : ℚ
  xmax : ℚ
  ymax : ℚ
deriving DecidableEq, Repr

/-- One iteration of the accumulation loop of `bounded_multipolygon`
(src/convert.rs:76-94): strict-compare-and-replace on each of the four
accumulators. -/
def boundsStep (a : BoundsAcc) (r : GRect) : BoundsAcc :=
  { xmin := if r.x_min < a.xmin then r.x_min else a.xmin
    ymin := if r.y_min < a.ymin then r.y_min else a.ymin
    xmax := if r.x_max > a.xmax then r.x_max else a.xmax
    ymax := if r.y_max > a.ymax then r.y_max else a.ymax }

/-- `Convert<geo_types::MultiPolygon>::bounded_multipolygon`
(src/convert.rs:49-102): convert each part with `bounded_polygon`, collecting
the per-part rectangles in order; then fold the present rectangles
(`flatten` skips the `None`s) into the sentinel accumulators and build the
final `Rect::new(xmin, ymin, xmax, ymax)`. -/
def bounded_multipolygon (m : List GeoPolygon) : GalMultiPolygon × GRect :=
  let pairs := m.map bounded_polygon
  let parts := pairs.map Prod.fst
  let boundaries := pairs.map Prod.snd
  let acc := (boundaries.filterMap id).foldl boundsStep ⟨f64MAX, f64MAX, f64MIN, f64MIN⟩
  (⟨parts⟩, ⟨acc.xmin, acc.ymin, acc.xmax, acc.ymax⟩)

end Convert

/-- `geo_types::Line`: a two-point segment; the source's `end` field is named
`stop` here because `end` is reserved in Lean. -/
structure Line where
  start : Coord
  stop : Coord
deriving DecidableEq, Repr

/-- `geo_types::Rect`: an axis-aligned rectangle stored as min/max coords. -/
structure GeoTypesRect where
  min : Coord
  max : Coord
deriving DecidableEq, Repr

/-- `geo_types::Triangle`: three corner coordinates. -/
structure Triangle where
  v0 : Coord
  v1 : Coord
  v2 : Coord
deriving DecidableEq, Repr

/-- `geo_types::Geometry`: the ten-variant tagged union over which
`geojson_value` dispatches. -/
inductive Geometry where
  | point (p : GeoPoint)
  | line (l : Line)
  | lineString (ls : LineString)
  | polygon (p : GeoPolygon)
  | multiPoint (ps : List GeoPoint)
  | multiLineString (ls : List LineString)
  | multiPolygon (ps : List GeoPolygon)
  | geometryCollection (gs : List Geometry)
  | rect (r : GeoTypesRect)
  | triangle (t : Triangle)

/-- `geojson::Value` (external crate): the seven GeoJSON geometry encodings.
Positions are lists of floats; a `geojson::Geometry` inside a collection is
modelled by its `Value` (its optional bbox and foreign members are always
absent on this conversion path). -/
inductive GJValue where
  | point (pos : List ℚ)
  | multiPoint (ps : List (List ℚ))
  | lineString (ls : List (List ℚ))
  | multiLineString (ls : List (List (List ℚ)))
  | polygon (rings : List (List (List ℚ)))
  | multiPolygon (ps : List (List (List (List ℚ))))
  | geometryCollection (gs : List GJValue)

/-- A GeoJSON position for a coordinate: `[x, y]`. -/
def Coord.position (c : Coord) : List ℚ := [c.x, c.y]

/-- The GeoJSON rings of a polygon: exterior first, then the interiors
(external `geojson` crate encoding). -/
def GeoPolygon.gjRings (p : GeoPolygon) : List (List (List ℚ)) :=
  (p.exterior :: p.interiors).map (List.map Coord.position)

namespace GJ

/-- `geojson::Value::from(&geo_types::Point)` (external crate). -/
def fromPoint (p : GeoPoint) : GJValue := .point p.coord.position

/-- `geojson::Value::from(&geo_types::Line)` (external crate): a two-position
LineString. -/
def fromLine (l : Line) : GJValue := .lineString [l.start.position, l.stop.position]

/-- `geojson::Value::from(&geo_types::LineString)` (external crate). -/
def fromLineString (ls : LineString) : GJValue := .lineString (ls.map Coord.position)

/-- `geojson::Value::from(&geo_types::Polygon)` (external crate). -/
def fromPolygon (p : GeoPolygon) : GJValue := .polygon p.gjRings

/-- `geojson::Value::from(&geo_types::MultiPoint)` (external crate). -/
def fromMultiPoint (ps : List GeoPoint) : GJValue :=
  .multiPoint (ps.map (fun p => p.coord.position))

/-- `geojson::Value::from(&geo_types::MultiLineString)` (external crate). -/
def fromMultiLineString (ls : List LineString) : GJValue :=
  .multiLineString (ls.map (List.map Coord.position))

/-- `geojson::Value::from(&geo_types::MultiPolygon)` (external crate). -/
def fromMultiPolygon (ps : List GeoPolygon) : GJValue :=
  .multiPolygon (ps.map GeoPolygon.gjRings)

/-- `geojson::Value::from(&geo_types::Rect)` (external crate): the rectangle's
corner ring as a GeoJSON Polygon. -/
def fromRect (r : GeoTypesRect) : GJValue :=
  .polygon [[[r.min.x, r.min.y], [r.max.x, r.min.y], [r.max.x, r.max.y],
             [r.min.x, r.max.y], [r.min.x, r.min.y]]]

/-- `geojson::Value::from(&geo_types::Triangle)` (external crate): the closed
corner ring as a GeoJSON Polygon. -/
def fromTriangle (t : Triangle) : GJValue :=
  .polygon [[t.v0.position, t.v1.position, t.v2.position, t.v0.position]]

end GJ

namespace Convert

mutual

/-- `Convert<geo_types::Geometry>::geojson_value` (src/convert.rs:107-120):
the exhaustive match over the ten `Geometry` variants, delegating each to the
`geojson` crate's own `From` conversion for that variant; the collection arm's
delegate recursively converts each member geometry. -/
def geojson_value : Geometry → GJValue
  | .point p => GJ.fromPoint p
  | .line l => GJ.fromLine l
  | .lineString ls => GJ.fromLineString ls
  | .polygon p => GJ.fromPolygon p
  | .multiPoint ps => GJ.fromMultiPoint ps
  | .multiLineString ls => GJ.fromMultiLineString ls
  | .multiPolygon ps => GJ.fromMultiPolygon ps
  | .geometryCollection gs => .geometryCollection (geojson_value_list gs)
  | .rect r => GJ.fromRect r
  | .triangle t => GJ.fromTriangle t

/-- Member-by-member conversion inside `geojson::Value::from
(&geo_types::GeometryCollection)` (external crate). -/
def geojson_value_list : List Geometry → List GJValue
  | [] => []
  | g :: gs => geojson_value g :: geojson_value_list gs

end

end Convert

/-- The discriminant (type tag) of a `geojson::Value`. -/
inductive GJTag where
  | point | multiPoint | lineString | multiLineString
  | polygon | multiPolygon | geometryCollection
deriving DecidableEq, Repr

/-- The discriminant of a `GJValue`. -/
def GJValue.tag : GJValue → GJTag
  | .point _ => .point
  | .multiPoint _ => .multiPoint
  | .lineString _ => .lineString
  | .multiLineString _ => .multiLineString
  | .polygon _ => .polygon
  | .multiPolygon _ => .multiPolygon
  | .geometryCollection _ => .geometryCollection

/-- The GeoJSON type tag corresponding to each `Geometry` variant: the
interchange format has no Line, Rect or Triangle types, so those variants
correspond to their GeoJSON encodings (LineString, Polygon, Polygon). -/
def Geometry.gjTag : Geometry → GJTag
  | .point _ => .point
  | .line _ => .lineString
  | .lineString _ => .lineString
  | .polygon _ => .polygon
  | .multiPoint _ => .multiPoint
  | .multiLineString _ => .multiLineString
  | .multiPolygon _ => .multiPolygon
  | .geometryCollection _ => .geometryCollection
  | .rect _ => .polygon
  | .triangle _ => .polygon

/-- The supported single-point models of the adapter layer. -/
inductive PtModel where
  | shp | shpZ | geoPt | geoCrd | p2d
deriving DecidableEq, Repr

/-- The value type of each point model. -/
def PtVal : PtModel → Type
  | .shp => ShpPoint
  | .shpZ => ShpPointZ
  | .geoPt => GeoPoint
  | .geoCrd => Coord
  | .p2d => Point2d

/-- The single-point conversion methods of `src/convert.rs`, one constructor
per method, indexed by source and target model (`geo_types` and `geo` point
and coord types coincide in the source, so `geo_point`/`geo_coord` and
`geotypes_coord` land in the same models). -/
inductive ConvEdge : PtModel → PtModel → Type where
  | geoPoint_point : ConvEdge .geoPt .p2d
  | geoPoint_geo_point : ConvEdge .geoPt .geoPt
  | geoPoint_geo_coord : ConvEdge .geoPt .geoCrd
  | shpPoint_point : ConvEdge .shp .p2d
  | shpPoint_geo_point : ConvEdge .shp .geoPt
  | shpPoint_geo_coord : ConvEdge .shp .geoCrd
  | shpPointZ_point : ConvEdge .shpZ .p2d
  | shpPointZ_geo_point : ConvEdge .shpZ .geoPt
  | shpPointZ_geo_coord : ConvEdge .shpZ .geoCrd
  | shpPointZ_geotypes_coord : ConvEdge .shpZ .geoCrd
  | coord_point : ConvEdge .geoCrd .p2d

/-- Apply a single-point conversion method to a value of its source model. -/
def ConvEdge.apply : {X Y : PtModel} → ConvEdge X Y → PtVal X → PtVal Y
  | _, _, .geoPoint_point, v => Convert.geoPoint_point v
  | _, _, .geoPoint_geo_point, v => Convert.geoPoint_geo_point v
  | _, _, .geoPoint_geo_coord, v => Convert.geoPoint_geo_coord v
  | _, _, .shpPoint_point, v => Convert.shpPoint_point v
  | _, _, .shpPoint_geo_point, v => Convert.shpPoint_geo_point v
  | _, _, .shpPoint_geo_coord, v => Convert.shpPoint_geo_coord v
  | _, _, .shpPointZ_point, v => Convert.shpPointZ_point v
  | _, _, .shpPointZ_geo_point, v => Convert.shpPointZ_geo_point v
  | _, _, .shpPointZ_geo_coord, v => Convert.shpPointZ_geo_coord v
  | _, _, .shpPointZ_geotypes_coord, v => Convert.shpPointZ_geotypes_coord v
  | _, _, .coord_point, v => Convert.coord_point v

/-- Concrete outer ring A: a closed 10×10 square at the origin. -/
def ringA : List ShpPoint := [⟨0, 0⟩, ⟨0, 10⟩, ⟨10, 10⟩, ⟨10, 0⟩, ⟨0, 0⟩]

/-- Concrete inner ring a1: a closed 2×2 square inside ring A. -/
def ringa1 : List ShpPoint := [⟨2, 2⟩, ⟨2, 4⟩, ⟨4, 4⟩, ⟨4, 2⟩, ⟨2, 2⟩]

/-- Concrete inner ring a2: a second closed 2×2 square inside ring A. -/
def ringa2 : List ShpPoint := [⟨6, 6⟩, ⟨6, 8⟩, ⟨8, 8⟩, ⟨8, 6⟩, ⟨6, 6⟩]

/-- Concrete outer ring B: a closed 10×10 square away from ring A. -/
def ringB : List ShpPoint := [⟨20, 20⟩, ⟨20, 30⟩, ⟨30, 30⟩, ⟨30, 20⟩, ⟨20, 20⟩]

/-- Ring A as the `geo::LineString` its conversion produces. -/
def lineA : LineString := [⟨0, 0⟩, ⟨0, 10⟩, ⟨10, 10⟩, ⟨10, 0⟩, ⟨0, 0⟩]

/-- Ring a1 as the `geo::LineString` its conversion produces. -/
def linea1 : LineString := [⟨2, 2⟩, ⟨2, 4⟩, ⟨4, 4⟩, ⟨4, 2⟩, ⟨2, 2⟩]

/-- Ring a2 as the `geo::LineString` its conversion produces. -/
def linea2 : LineString := [⟨6, 6⟩, ⟨6, 8⟩, ⟨8, 8⟩, ⟨8, 6⟩, ⟨6, 6⟩]

/-- Ring A with a nonzero elevation and measure on every vertex. -/
def ringAZ : List ShpPointZ :=
  [⟨0, 0, 5, 1⟩, ⟨0, 10, 5, 1⟩, ⟨10, 10, 5, 1⟩, ⟨10, 0, 5, 1⟩, ⟨0, 0, 5, 1⟩]

/-- Ring B with a nonzero elevation and measure on every vertex. -/
def ringBZ : List ShpPointZ :=
  [⟨20, 20, 5, 1⟩, ⟨20, 30, 5, 1⟩, ⟨30, 30, 5, 1⟩, ⟨30, 20, 5, 1⟩, ⟨20, 20, 5, 1⟩]

/-- A concrete unit-square polygon (closed exterior, no holes). -/
def sqPoly : GeoPolygon := ⟨[⟨0, 0⟩, ⟨0, 1⟩, ⟨1, 1⟩, ⟨1, 0⟩, ⟨0, 0⟩], []⟩

/-- A concrete polygon with an empty exterior ring, whose bounding rectangle
is therefore absent. -/
def emptyPoly : GeoPolygon := ⟨[], []⟩

/-- Claim C1: the spec demands that `[Outer A, Inner a1, Inner a2, Outer B]`
produce `[Polygon(A, [a1, a2]), Polygon(B, [])]`, with the newly seen outer
ring becoming the new pending outer.  The code instead discards ring B when it
triggers the flush (`outer` is reset to `None`, src/convert.rs:205), so the
output is the single polygon A with holes a1 and a2. -/
theorem geo_polygons_flush_drops_new_outer :
    Convert.geo_polygons
        [PolygonRing.Outer ringA, PolygonRing.Inner ringa1, PolygonRing.Inner ringa2,
          PolygonRing.Outer ringB] =
      [⟨lineA, [linea1, linea2]⟩] ∧
    (Convert.geo_polygons
        [PolygonRing.Outer ringA, PolygonRing.Inner ringa1, PolygonRing.Inner ringa2,
          PolygonRing.Outer ringB]).length = 1 := by
  decide

/-- Claim C2: the spec demands one output polygon per Outer ring.  For the
well-formed two-outer input `[Outer A, Outer B]` both `geo_polygons` impls
return a single polygon: ring B is consumed as a flush trigger and dropped,
and the trailing flush at src/convert.rs:221-225 runs only when no polygon was
emitted. -/
theorem geo_polygons_not_ring_count_conserving :
    Convert.geo_polygons [PolygonRing.Outer ringA, PolygonRing.Outer ringB] =
      [⟨lineA, []⟩] ∧
    (Convert.geo_polygons [PolygonRing.Outer ringA, PolygonRing.Outer ringB]).length = 1 ∧
    Convert.geo_polygonsZ [PolygonRing.Outer ringAZ, PolygonRing.Outer ringBZ] =
      [⟨lineA, []⟩] ∧
    (Convert.geo_polygonsZ [PolygonRing.Outer ringAZ, PolygonRing.Outer ringBZ]).length = 1 := by
  decide

/-- Claim C4: an empty ring list yields an empty polygon list, and a list with
exactly one Outer ring yields exactly one polygon with an empty hole list. -/
theorem geo_polygons_empty_and_single_outer :
    Convert.geo_polygons [] = [] ∧
    ∀ pts : List ShpPoint,
      Convert.geo_polygons [PolygonRing.Outer pts] =
        [⟨LineString.close (pts.map Convert.shpPoint_geo_coord), []⟩] := by
  exact ⟨rfl, fun pts => rfl⟩

/-- Folding the ring loop over a block of Inner rings leaves the emitted
polygons and the pending outer untouched and appends the converted rings to
the accumulated holes. -/
theorem foldl_inner_rings (inners : List (List ShpPoint)) :
    ∀ s : Convert.RingState,
      (inners.map PolygonRing.Inner).foldl Convert.geoPolyStep s =
        ⟨s.polys, s.outer,
          s.inner ++ inners.map (fun i => i.map Convert.shpPoint_geo_coord)⟩ := by
  induction inners with
  | nil => intro s; simp
  | cons i t ih =>
    intro s
    simp only [List.map_cons, List.foldl_cons]
    rw [show Convert.geoPolyStep s (PolygonRing.Inner i) =
          ⟨s.polys, s.outer, s.inner ++ [i.map Convert.shpPoint_geo_coord]⟩ from rfl, ih]
    simp

/-- One ring-loop step appends zero or one polygon to the emitted list. -/
theorem geoPolyStep_polys (s : Convert.RingState) (r : PolygonRing ShpPoint) :
    ∃ e, (Convert.geoPolyStep s r).polys = s.polys ++ e := by
  cases r with
  | Outer pts =>
    cases hs : s.outer with
    | none => exact ⟨[], by simp [Convert.geoPolyStep, hs]⟩
    | some x => exact ⟨[GeoPolygon.new x s.inner], by simp [Convert.geoPolyStep, hs]⟩
  | Inner pts => exact ⟨[], by simp [Convert.geoPolyStep]⟩

/-- Across any run of the ring loop, the emitted polygon list only grows: the
polygons present at the start stay a prefix of the final list. -/
theorem foldl_polys_prefix (l : List (PolygonRing ShpPoint)) :
    ∀ s : Convert.RingState, ∃ t, (l.foldl Convert.geoPolyStep s).polys = s.polys ++ t := by
  induction l with
  | nil => intro s; exact ⟨[], by simp⟩
  | cons r rs ih =>
    intro s
    obtain ⟨e, he⟩ := geoPolyStep_polys s r
    obtain ⟨t, ht⟩ := ih (Convert.geoPolyStep s r)
    exact ⟨e ++ t, by simp only [List.foldl_cons, ht, he, List.append_assoc]⟩

/-- Claim C3 (counterexample): the claim says Inner rings preceding any Outer
ring end up as holes of no polygon.  For `[Inner a1, Outer A]` the code
attaches a1 as a hole of A's polygon via the trailing flush, because `inner`
is not reset when the first outer becomes pending. -/
theorem geo_polygons_orphan_inner_attached :
    Convert.geo_polygons [PolygonRing.Inner ringa1, PolygonRing.Outer ringA] =
      [⟨lineA, [linea1]⟩] ∧
    (Convert.geo_polygons [PolygonRing.Inner ringa1, PolygonRing.Outer ringA]).map
        GeoPolygon.interiors = [[linea1]] := by
  decide

/-- Claim C3 (amended): for a ring list whose Inner rings all precede the
Outer rings, no error is raised; when there is no Outer ring at all the Inner
rings are silently dropped (empty result), and when at least one Outer ring
follows, the leading Inner rings are attached as holes to the first Outer
ring's polygon. -/
theorem geo_polygons_orphan_inner_rings (inners outers : List (List ShpPoint)) :
    (outers = [] →
      Convert.geo_polygons
        (inners.map PolygonRing.Inner ++ outers.map PolygonRing.Outer) = []) ∧
    (∀ o rest, outers = o :: rest →
      ∃ tail,
        Convert.geo_polygons
            (inners.map PolygonRing.Inner ++ outers.map PolygonRing.Outer) =
          GeoPolygon.new (o.map Convert.shpPoint_geo_coord)
              (inners.map (fun i => i.map Convert.shpPoint_geo_coord)) :: tail) := by
  constructor
  · intro h
    subst h
    simp only [List.map_nil, List.append_nil, Convert.geo_polygons,
      foldl_inner_rings inners ⟨[], none, []⟩]
    simp
  · intro o rest h
    subst h
    simp only [Convert.geo_polygons, List.map_cons, List.foldl_append,
      foldl_inner_rings inners ⟨[], none, []⟩, List.foldl_cons]
    rw [show Convert.geoPolyStep
          ⟨[], none, [] ++ inners.map (fun i => i.map Convert.shpPoint_geo_coord)⟩
          (PolygonRing.Outer o) =
        ⟨[], some (o.map Convert.shpPoint_geo_coord),
          [] ++ inners.map (fun i => i.map Convert.shpPoint_geo_coord)⟩ from rfl]
    cases rest with
    | nil =>
      exact ⟨[], by simp⟩
    | cons r rs =>
      rw [List.map_cons, List.foldl_cons,
        show Convert.geoPolyStep
            ⟨[], some (o.map Convert.shpPoint_geo_coord),
              [] ++ inners.map (fun i => i.map Convert.shpPoint_geo_coord)⟩
            (PolygonRing.Outer r) =
          ⟨[GeoPolygon.new (o.map Convert.shpPoint_geo_coord)
              ([] ++ inners.map (fun i => i.map Convert.shpPoint_geo_coord))],
            none, []⟩ from rfl]
      obtain ⟨t, ht⟩ := foldl_polys_prefix (rs.map PolygonRing.Outer)
        ⟨[GeoPolygon.new (o.map Convert.shpPoint_geo_coord)
            ([] ++ inners.map (fun i => i.map Convert.shpPoint_geo_coord))], none, []⟩
      refine ⟨t, ?_⟩
      rw [ht]
      simp

/-- Claim C3 (witness): both branches of the amended statement at concrete
inputs — Inner-only input `[Inner a1]` yields no polygons, and
`[Inner a1, Outer A]` yields A's polygon with a1 as its hole. -/
theorem geo_polygons_orphan_inner_rings_witness :
    Convert.geo_polygons
        ([ringa1].map PolygonRing.Inner ++ ([] : List (List ShpPoint)).map PolygonRing.Outer)
      = [] ∧
    ∃ tail,
      Convert.geo_polygons
          ([ringa1].map PolygonRing.Inner ++ [ringA].map PolygonRing.Outer) =
        GeoPolygon.new (ringA.map Convert.shpPoint_geo_coord)
            ([ringa1].map (fun i => i.map Convert.shpPoint_geo_coord)) :: tail :=
  ⟨(geo_polygons_orphan_inner_rings [ringa1] []).1 rfl,
    (geo_polygons_orphan_inner_rings [ringa1] [ringA]).2 ringA [] rfl⟩

/-- One accumulation step never raises the running minima or lowers the
running maxima. -/
theorem boundsStep_le (a : Convert.BoundsAcc) (r : GRect) :
    (Convert.boundsStep a r).xmin ≤ a.xmin ∧ (Convert.boundsStep a r).ymin ≤ a.ymin ∧
    a.xmax ≤ (Convert.boundsStep a r).xmax ∧ a.ymax ≤ (Convert.boundsStep a r).ymax := by
  refine ⟨?_, ?_, ?_, ?_⟩ <;> simp only [Convert.boundsStep] <;> split <;>
    first
    | exact le_of_lt (by assumption)
    | exact le_refl _

/-- One accumulation step bounds the rectangle it absorbs. -/
theorem boundsStep_absorbs (a : Convert.BoundsAcc) (r : GRect) :
    (Convert.boundsStep a r).xmin ≤ r.x_min ∧ (Convert.boundsStep a r).ymin ≤ r.y_min ∧
    r.x_max ≤ (Convert.boundsStep a r).xmax ∧ r.y_max ≤ (Convert.boundsStep a r).ymax := by
  refine ⟨?_, ?_, ?_, ?_⟩ <;> simp only [Convert.boundsStep] <;> split <;>
    first
    | exact le_refl _
    | exact le_of_not_lt (by assumption)

/-- Folding the accumulation loop never raises the minima or lowers the maxima
of the starting accumulator. -/
theorem foldl_bounds_le_init (l : List GRect) :
    ∀ a : Convert.BoundsAcc,
      (l.foldl Convert.boundsStep a).xmin ≤ a.xmin ∧
      (l.foldl Convert.boundsStep a).ymin ≤ a.ymin ∧
      a.xmax ≤ (l.foldl Convert.boundsStep a).xmax ∧
      a.ymax ≤ (l.foldl Convert.boundsStep a).ymax := by
  induction l with
  | nil => intro a; exact ⟨le_refl _, le_refl _, le_refl _, le_refl _⟩
  | cons r t ih =>
    intro a
    obtain ⟨h1, h2, h3, h4⟩ := ih (Convert.boundsStep a r)
    obtain ⟨g1, g2, g3, g4⟩ := boundsStep_le a r
    exact ⟨le_trans h1 g1, le_trans h2 g2, le_trans g3 h3, le_trans g4 h4⟩

/-- Folding the accumulation loop bounds every rectangle in the list. -/
theorem foldl_bounds_mem (l : List GRect) :
    ∀ a : Convert.BoundsAcc, ∀ r ∈ l,
      (l.foldl Convert.boundsStep a).xmin ≤ r.x_min ∧
      (l.foldl Convert.boundsStep a).ymin ≤ r.y_min ∧
      r.x_max ≤ (l.foldl Convert.boundsStep a).xmax ∧
      r.y_max ≤ (l.foldl Convert.boundsStep a).ymax := by
  induction l with
  | nil => intro a r hr; exact absurd hr (List.not_mem_nil r)
  | cons b t ih =>
    intro a r hr
    rcases List.mem_cons.mp hr with h | h
    · subst h
      obtain ⟨h1, h2, h3, h4⟩ := foldl_bounds_le_init t (Convert.boundsStep a r)
      obtain ⟨g1, g2, g3, g4⟩ := boundsStep_absorbs a r
      exact ⟨le_trans h1 g1, le_trans h2 g2, le_trans g3 h3, le_trans g4 h4⟩
    · exact ih (Convert.boundsStep a b) r h

/-- Claim C5: the rectangle aggregated by `bounded_multipolygon` encloses the
bounding rectangle of every part that contributes one: its x_min/y_min are at
most, and its x_max/y_max at least, the part's. -/
theorem bounded_multipolygon_encloses_parts (m : List GeoPolygon) (p : GeoPolygon)
    (hp : p ∈ m) (r : GRect) (hr : (Convert.bounded_polygon p).2 = some r) :
    (Convert.bounded_multipolygon m).2.x_min ≤ r.x_min ∧
    (Convert.bounded_multipolygon m).2.y_min ≤ r.y_min ∧
    r.x_max ≤ (Convert.bounded_multipolygon m).2.x_max ∧
    r.y_max ≤ (Convert.bounded_multipolygon m).2.y_max := by
  have hmem : r ∈ ((m.map Convert.bounded_polygon).map Prod.snd).filterMap id := by
    rw [List.mem_filterMap]
    exact ⟨some r, List.mem_map.mpr ⟨Convert.bounded_polygon p,
      List.mem_map.mpr ⟨p, hp, rfl⟩, hr⟩, rfl⟩
  simpa only [Convert.bounded_multipolygon] using
    foldl_bounds_mem (((m.map Convert.bounded_polygon).map Prod.snd).filterMap id)
      ⟨f64MAX, f64MAX, f64MIN, f64MIN⟩ r hmem

/-- Claim C5 (witness): a single unit-square part, whose bounding rectangle
(0, 0, 1, 1) is enclosed by the aggregated rectangle. -/
theorem bounded_multipolygon_encloses_parts_witness :
    (Convert.bounded_multipolygon [sqPoly]).2.x_min ≤ (0 : ℚ) ∧
    (Convert.bounded_multipolygon [sqPoly]).2.y_min ≤ (0 : ℚ) ∧
    (1 : ℚ) ≤ (Convert.bounded_multipolygon [sqPoly]).2.x_max ∧
    (1 : ℚ) ≤ (Convert.bounded_multipolygon [sqPoly]).2.y_max :=
  bounded_multipolygon_encloses_parts [sqPoly] sqPoly (by decide) ⟨0, 0, 1, 1⟩ (by decide)

/-- Claim C6: when no part contributes a rectangle (empty-exterior parts or no
parts at all), `bounded_multipolygon` still returns a rectangle — the
untouched sentinel accumulators, a degenerate rectangle with
x_min = y_min = f64::MAX strictly above x_max = y_max = f64::MIN. -/
theorem bounded_multipolygon_degenerate_sentinels (m : List GeoPolygon)
    (h : ∀ p ∈ m, (Convert.bounded_polygon p).2 = none) :
    (Convert.bounded_multipolygon m).2 = ⟨f64MAX, f64MAX, f64MIN, f64MIN⟩ ∧
    (Convert.bounded_multipolygon m).2.x_max < (Convert.bounded_multipolygon m).2.x_min ∧
    (Convert.bounded_multipolygon m).2.y_max < (Convert.bounded_multipolygon m).2.y_min := by
  have hnil : ((m.map Convert.bounded_polygon).map Prod.snd).filterMap id = [] := by
    rw [List.filterMap_eq_nil_iff]
    intro x hx
    obtain ⟨pair, hpair, hsnd⟩ := List.mem_map.mp hx
    obtain ⟨p, hpm, hbp⟩ := List.mem_map.mp hpair
    subst hbp
    rw [← hsnd]
    exact h p hpm
  have hrect : (Convert.bounded_multipolygon m).2 = ⟨f64MAX, f64MAX, f64MIN, f64MIN⟩ := by
    simp only [Convert.bounded_multipolygon, hnil, List.foldl_nil]
  have hpos : (0 : ℚ) < f64MAX := by norm_num [f64MAX]
  have hlt : f64MIN < f64MAX := by
    rw [f64MIN]
    exact lt_trans (neg_neg_of_pos hpos) hpos
  rw [hrect]
  exact ⟨rfl, hlt, hlt⟩

/-- Claim C6 (witness): the zero-part multipolygon, where the hypothesis holds
vacuously and the degenerate sentinel rectangle is returned. -/
theorem bounded_multipolygon_degenerate_sentinels_witness :
    (Convert.bounded_multipolygon ([] : List GeoPolygon)).2 =
      ⟨f64MAX, f64MAX, f64MIN, f64MIN⟩ ∧
    (Convert.bounded_multipolygon ([] : List GeoPolygon)).2.x_max <
      (Convert.bounded_multipolygon ([] : List GeoPolygon)).2.x_min ∧
    (Convert.bounded_multipolygon ([] : List GeoPolygon)).2.y_max <
      (Convert.bounded_multipolygon ([] : List GeoPolygon)).2.y_min :=
  bounded_multipolygon_degenerate_sentinels [] (by simp)

/-- Claim C7: every single-point conversion copies the x and y values
verbatim, drops the z-elevation (and measure) of shapefile source points, and
is total by construction: the output of each method is exactly the (x, y)
pair of its input, and changing only z or m leaves every output unchanged. -/
theorem point_conversions_copy_xy (pz : ShpPointZ) (sp : ShpPoint) (gp : GeoPoint)
    (c : Coord) (z' m' : ℚ) :
    Convert.shpPointZ_point pz = ⟨pz.x, pz.y⟩ ∧
    Convert.shpPointZ_geo_point pz = ⟨⟨pz.x, pz.y⟩⟩ ∧
    Convert.shpPointZ_geo_coord pz = ⟨pz.x, pz.y⟩ ∧
    Convert.shpPointZ_geotypes_coord pz = ⟨pz.x, pz.y⟩ ∧
    Convert.shpPoint_point sp = ⟨sp.x, sp.y⟩ ∧
    Convert.shpPoint_geo_point sp = ⟨⟨sp.x, sp.y⟩⟩ ∧
    Convert.shpPoint_geo_coord sp = ⟨sp.x, sp.y⟩ ∧
    Convert.geoPoint_point gp = ⟨gp.coord.x, gp.coord.y⟩ ∧
    Convert.geoPoint_geo_point gp = ⟨⟨gp.coord.x, gp.coord.y⟩⟩ ∧
    Convert.geoPoint_geo_coord gp = ⟨gp.coord.x, gp.coord.y⟩ ∧
    Convert.coord_point c = ⟨c.x, c.y⟩ ∧
    Convert.shpPointZ_point ⟨pz.x, pz.y, z', m'⟩ = Convert.shpPointZ_point pz ∧
    Convert.shpPointZ_geo_point ⟨pz.x, pz.y, z', m'⟩ = Convert.shpPointZ_geo_point pz ∧
    Convert.shpPointZ_geo_coord ⟨pz.x, pz.y, z', m'⟩ = Convert.shpPointZ_geo_coord pz ∧
    Convert.shpPointZ_geotypes_coord ⟨pz.x, pz.y, z', m'⟩ =
      Convert.shpPointZ_geotypes_coord pz :=
  ⟨rfl, rfl, rfl, rfl, rfl, rfl, rfl, rfl, rfl, rfl, rfl, rfl, rfl, rfl, rfl⟩

/-- Claim C8: `geojson_value` is a total, exhaustive map over the ten
`Geometry` variants, and the discriminant of the value it returns is the
GeoJSON type corresponding to the input variant (Line encodes as LineString;
Rect and Triangle encode as Polygon). -/
theorem geojson_value_tag_corresponds (g : Geometry) :
    (Convert.geojson_value g).tag = g.gjTag := by
  cases g <;> rfl

/-- Claim C9: for every point A in any supported model and every pair of
models X, Y for which the code provides the conversions A→X, X→Y and Y→X,
converting A to X, then to Y, then back to X gives exactly the same value as
converting A to X directly (coordinates preserved exactly). -/
theorem point_round_trip_identity (A X Y : PtModel) (e0 : ConvEdge A X)
    (e1 : ConvEdge X Y) (e2 : ConvEdge Y X) (a : PtVal A) :
    e2.apply (e1.apply (e0.apply a)) = e0.apply a := by
  cases e1 <;> cases e2 <;> cases e0 <;> rfl

/-- Helper for C10: the polygon component of `bounded_polygon` is exactly
`polygon`, whichever branch the bounding computation takes. -/
theorem bounded_polygon_fst (p : GeoPolygon) :
    (Convert.bounded_polygon p).1 = Convert.polygon p := by
  rw [Convert.bounded_polygon]
  split <;> rfl

/-- Claim C10: the multipolygon returned by `bounded_multipolygon` is the one
returned by `multipolygon`: computing the bounding rectangle alongside the
conversion changes no part, no order, no count. -/
theorem bounded_multipolygon_parts_eq_multipolygon (m : List GeoPolygon) :
    (Convert.bounded_multipolygon m).1 = Convert.multipolygon m := by
  simp only [Convert.bounded_multipolygon, Convert.multipolygon, List.map_map]
  congr 1
  exact List.map_congr_left fun p _ => bounded_polygon_fst p

end Spreadsheet
